import Mathlib

/-!
# Expense tracker: file-backed CLI (v1.go) and layered HTTP service (expense-tracker-v2)

A shallow embedding of the Go sources and the properties proved about them.

Conventions of the embedding:

* Go `string` is `String`; byte-level library routines work on its character list.
* Go `float64` is its IEEE-754 binary64 bit pattern (`Float64`); only the comparisons
  with the constant `0` that the sources perform are interpreted.
* Go `int` (taken at its 64-bit size) and `int64` values are `Int`.  The only arithmetic
  on them is the `+ 1` of `addExpense`; it wraps around as the machine addition does
  (`wrapInt64`).
* `time.Now()` is a parameter (`now`), the outcome of file and database calls is
  supplied by the caller of the embedded function.
* Calls through an interface are logged, so that "is called once" and "is not called"
  are statements about the log.
-/

namespace ExpenseTracker

/-! ## float64 -/

/-- IEEE-754 binary64 value, held as its 64-bit pattern: bit 63 is the sign, bits 52..62
the biased exponent, bits 0..51 the fraction. -/
structure Float64 where
  bits : Nat
  isLt : bits < 2 ^ 64
  deriving DecidableEq

namespace Float64

/-- Sign bit. -/
def sign (x : Float64) : Nat := x.bits / 2 ^ 63

/-- Biased exponent field. -/
def exponent (x : Float64) : Nat := x.bits / 2 ^ 52 % 2 ^ 11

/-- Fraction field. -/
def fraction (x : Float64) : Nat := x.bits % 2 ^ 52

/-- Not-a-number: all exponent bits set and a non-zero fraction. -/
def isNaN (x : Float64) : Bool := x.exponent == 2047 && x.fraction != 0

/-- Go `x == 0`: true for `+0` and `-0` only. -/
def eqZero (x : Float64) : Bool := x.exponent == 0 && x.fraction == 0

/-- Go `x <= 0`: false for NaN, otherwise true for the zeros and the negative values. -/
def leZero (x : Float64) : Bool := !x.isNaN && (x.eqZero || x.sign == 1)

/-- Go `x > 0`: false for NaN, otherwise true for the non-zero values with clear sign. -/
def gtZero (x : Float64) : Bool := !x.isNaN && !x.eqZero && x.sign == 0

/-- The value `+0`. -/
def zero : Float64 := ⟨0, by decide⟩

/-- The value `12.5` (`0x4029000000000000`). -/
def twelveAndHalf : Float64 := ⟨0x4029000000000000, by decide⟩

/-- The value `-5` (`0xC014000000000000`). -/
def minusFive : Float64 := ⟨0xC014000000000000, by decide⟩

/-- A quiet NaN (`0x7FF8000000000001`). -/
def nan : Float64 := ⟨0x7FF8000000000001, by decide⟩

end Float64

/-! ## The record type (v1.go `Expense`, domain/expense.go `Expense`) -/

/-- The expense record: `ID`, `Description`, `Amount`, `Category`, `Date`. -/
structure Expense where
  ID : Int
  Description : String
  Amount : Float64
  Category : String
  Date : Nat
  deriving DecidableEq

/-! ## v1.go: the file-backed command-line tool -/

/-- What `saveExpenses` meets: `MarshalIndent` and `WriteFile` both succeed, or one of
them fails with a message and leaves the file holding `fileAfter`. -/
inductive SaveOutcome where
  | ok
  | fail (msg : String) (fileAfter : Option (List Expense))
  deriving DecidableEq

/-- Process state of the command-line tool: the global slice `expenses`, the contents of
`expenses.json` (`none` when the file is absent), what was printed, and how often
`saveExpenses` ran. -/
structure Cli where
  expenses : List Expense
  file : Option (List Expense)
  stdout : List String
  saves : Nat
  deriving DecidableEq

/-- `saveExpenses`: serialise the whole slice and overwrite the file; returns the error. -/
def saveExpenses (o : SaveOutcome) (w : Cli) : Option String × Cli :=
  match o with
  | .ok => (none, { w with file := some w.expenses, saves := w.saves + 1 })
  | .fail msg f => (some msg, { w with file := f, saves := w.saves + 1 })

/-- The value a signed 64-bit integer holds after an arithmetic result `x`: `x` reduced
modulo `2^64` into the range from `-2^63` to `2^63 - 1`. -/
def wrapInt64 (x : Int) : Int := (x + 2 ^ 63) % 2 ^ 64 - 2 ^ 63

/-- The identifier computed at the top of `addExpense`: `1`, or the last element's
`ID + 1` (an `int` addition) when the slice is not empty. -/
def nextID (expenses : List Expense) : Int :=
  match expenses.getLast? with
  | none => 1
  | some e => wrapInt64 (e.ID + 1)

/-- `addExpense(desc, amount, category)`. -/
def addExpense (desc : String) (amount : Float64) (category : String)
    (now : Nat) (o : SaveOutcome) (w : Cli) : Cli :=
  let id := nextID w.expenses
  let newExpense : Expense :=
    { ID := id, Description := desc, Amount := amount, Category := category, Date := now }
  let w1 := { w with expenses := w.expenses ++ [newExpense] }
  match saveExpenses o w1 with
  | (some err, w2) => { w2 with stdout := w2.stdout ++ ["Error saving data: " ++ err ++ "\n"] }
  | (none, w2) =>
    { w2 with stdout := w2.stdout ++ ["Expense added successfully! ID: " ++ toString id ++ "\n"] }

/-- The scan of `deleteExpense`: index of the first element whose `ID` is `id`, counted
from `i`; `none` stands for the initial `index := -1` surviving the loop. -/
def findIndexFrom (id : Int) : List Expense → Nat → Option Nat
  | [], _ => none
  | e :: rest, i => if e.ID = id then some i else findIndexFrom id rest (i + 1)

/-- `deleteExpense(id)`. -/
def deleteExpense (id : Int) (o : SaveOutcome) (w : Cli) : Cli :=
  match findIndexFrom id w.expenses 0 with
  | none =>
    { w with stdout := w.stdout ++ ["Expense with ID " ++ toString id ++ " not found\n"] }
  | some index =>
    let w1 := { w with expenses := w.expenses.take index ++ w.expenses.drop (index + 1) }
    match saveExpenses o w1 with
    | (some err, w2) => { w2 with stdout := w2.stdout ++ ["Error saving data: " ++ err ++ "\n"] }
    | (none, w2) =>
      { w2 with stdout := w2.stdout ++ ["Expense deleted successfully! ID: " ++ toString id ++ "\n"] }

/-- The `case "add"` arm of `main`, after the flags `-desc`, `-amount`, `-cat` are parsed. -/
def mainAdd (addDesc : String) (addAmt : Float64) (addCat : String)
    (now : Nat) (o : SaveOutcome) (w : Cli) : Cli :=
  if addDesc = "" ∨ addAmt.eqZero = true then
    { w with stdout := w.stdout ++
        ["Please provide description and amount. Example: add -desc 'Lunch' -amount 50\n"] }
  else addExpense addDesc addAmt addCat now o w

/-- The `case "delete"` arm of `main`, after the flag `-id` is parsed. -/
def mainDelete (deleteID : Int) (o : SaveOutcome) (w : Cli) : Cli :=
  if deleteID = 0 then { w with stdout := w.stdout ++ ["Usage: delete -id 1\n"] }
  else deleteExpense deleteID o w

/-- A process state with nothing in memory, no file, nothing printed. -/
def Cli.empty : Cli := { expenses := [], file := none, stdout := [], saves := 0 }

/-- One call on the file store. -/
inductive Op where
  | add (desc : String) (amount : Float64) (category : String) (now : Nat) (o : SaveOutcome)
  | delete (id : Int) (o : SaveOutcome)

/-- Effect of one call. -/
def Op.apply : Op → Cli → Cli
  | .add d a c n o, w => addExpense d a c n o w
  | .delete i o, w => deleteExpense i o w

/-- Effect of a sequence of calls, first to last. -/
def run : List Op → Cli → Cli
  | [], w => w
  | op :: ops, w => run ops (op.apply w)

/-- The identifiers handed out by the `add` calls of a sequence, in call order. -/
def assignedIDs : List Op → Cli → List Int
  | [], _ => []
  | .add d a c n o :: ops, w => nextID w.expenses :: assignedIDs ops (addExpense d a c n o w)
  | .delete i o :: ops, w => assignedIDs ops (deleteExpense i o w)

/-- Number of `addExpense` calls in a sequence. -/
def countAdds : List Op → Nat
  | [] => 0
  | .add _ _ _ _ _ :: ops => countAdds ops + 1
  | .delete _ _ :: ops => countAdds ops

/-- The sequence that, `n` times over, adds a record and then deletes the record with
id `x`, `x + 1`, ... (as `int` values): on a slice holding ids `1` and `x` it keeps the
first record and moves the second id one step on each round. -/
def spin : Nat → Int → List Op
  | 0, _ => []
  | n + 1, x =>
    .add "Tea" Float64.twelveAndHalf "Food" 0 .ok :: .delete x .ok :: spin n (wrapInt64 (x + 1))

/-- Two adds from nothing, then `n` rounds of `spin` starting at id `2`. -/
def twoThenSpin (n : Nat) : List Op :=
  .add "Lunch" Float64.twelveAndHalf "Food" 0 .ok ::
    .add "Bus" Float64.twelveAndHalf "Travel" 0 .ok :: spin n 2

/-- The reading "max existing + 1" of the data model: one more than the largest `ID`
held by the records (`1` for no records). -/
def maxExistingPlusOne : List Expense → Int
  | [] => 1
  | e :: rest => rest.foldl (fun m x => max m x.ID) e.ID + 1

/-! ## expense-tracker-v2: errors and interfaces (domain/interfaces.go) -/

/-- The `error` values the sources build, tagged by where they are made:
`validation` by `errors.New` in `RegisterExpense`, `notFound` by
`errors.New("expense not found")` in the repository, `storage` for a driver error
(wrapped by `fmt.Errorf` or returned as it came). -/
inductive AppError where
  | validation (msg : String)
  | notFound
  | storage (msg : String)
  deriving DecidableEq

/-- The method `Error()` of an error value: its text. -/
def AppError.Error : AppError → String
  | .validation msg => msg
  | .notFound => "expense not found"
  | .storage msg => msg

/-- State together with the log of the interface calls made so far. -/
structure Logged (κ σ : Type) where
  st : σ
  calls : List κ

/-- `domain.ExpenseRepository`, over a store state `σ`.  `Create` receives a pointer: it
returns the record as it leaves it behind the pointer, and the error. -/
structure ExpenseRepository (σ : Type) where
  Create : Expense → σ → (Expense × Option AppError) × σ
  GetAll : σ → (List Expense × Option AppError) × σ
  GetByID : Int → σ → (Option Expense × Option AppError) × σ
  Delete : Int → σ → Option AppError × σ

/-- A call through `domain.ExpenseRepository`. -/
inductive RepoCall where
  | Create (e : Expense)
  | GetAll
  | GetByID (id : Int)
  | Delete (id : Int)
  deriving DecidableEq

/-- `domain.ExpenseService`, over a service state `τ`. -/
structure ExpenseService (τ : Type) where
  RegisterExpense : String → Float64 → String → τ → (Option Expense × Option AppError) × τ
  ListExpenses : τ → (List Expense × Option AppError) × τ
  GetExpenseDetails : Int → τ → (Option Expense × Option AppError) × τ
  RemoveExpense : Int → τ → Option AppError × τ

/-- A call through `domain.ExpenseService`. -/
inductive ServiceCall where
  | RegisterExpense (desc : String) (amount : Float64) (category : String)
  | ListExpenses
  | GetExpenseDetails (id : Int)
  | RemoveExpense (id : Int)
  deriving DecidableEq

/-! ## service/expense_service.go -/

/-- `(*expenseService).RegisterExpense`. -/
def RegisterExpense {σ : Type} (repo : ExpenseRepository σ) (now : Nat)
    (desc : String) (amount : Float64) (category : String) (w : Logged RepoCall σ) :
    (Option Expense × Option AppError) × Logged RepoCall σ :=
  if amount.leZero = true then
    ((none, some (.validation "amount must be positive")), w)
  else if desc = "" then
    ((none, some (.validation "description cannot be empty")), w)
  else
    let newExpense : Expense :=
      { ID := 0, Description := desc, Amount := amount, Category := category, Date := now }
    let r := repo.Create newExpense w.st
    let w1 : Logged RepoCall σ := { st := r.2, calls := w.calls ++ [.Create newExpense] }
    match r.1.2 with
    | some err => ((none, some err), w1)
    | none => ((some r.1.1, none), w1)

/-- `(*expenseService).ListExpenses`. -/
def ListExpenses {σ : Type} (repo : ExpenseRepository σ) (w : Logged RepoCall σ) :
    (List Expense × Option AppError) × Logged RepoCall σ :=
  let r := repo.GetAll w.st
  (r.1, { st := r.2, calls := w.calls ++ [.GetAll] })

/-- `(*expenseService).GetExpenseDetails`. -/
def GetExpenseDetails {σ : Type} (repo : ExpenseRepository σ) (id : Int)
    (w : Logged RepoCall σ) : (Option Expense × Option AppError) × Logged RepoCall σ :=
  let r := repo.GetByID id w.st
  (r.1, { st := r.2, calls := w.calls ++ [.GetByID id] })

/-- `(*expenseService).RemoveExpense`. -/
def RemoveExpense {σ : Type} (repo : ExpenseRepository σ) (id : Int)
    (w : Logged RepoCall σ) : Option AppError × Logged RepoCall σ :=
  let r := repo.Delete id w.st
  (r.1, { st := r.2, calls := w.calls ++ [.Delete id] })

/-- `NewExpenseService(repo)`: the service value the handlers hold. -/
def NewExpenseService {σ : Type} (repo : ExpenseRepository σ) (now : Nat) :
    ExpenseService (Logged RepoCall σ) where
  RegisterExpense := RegisterExpense repo now
  ListExpenses := ListExpenses repo
  GetExpenseDetails := GetExpenseDetails repo
  RemoveExpense := RemoveExpense repo

/-! ## repository/postgres.go -/

/-- Outcome of `QueryRowContext(...).Scan(...)` for the select by id. -/
inductive ScanOutcome where
  | noRows
  | err (msg : String)
  | row (e : Expense)

/-- Outcome of `ExecContext` followed by `RowsAffected`. -/
inductive ExecOutcome where
  | execErr (msg : String)
  | rowsAffectedErr (msg : String)
  | affected (n : Int)

/-- Outcome of `QueryContext` and of walking its rows: the scans in row order and the
final `rows.Err()`. -/
inductive RowsOutcome where
  | queryErr (msg : String)
  | rows (scans : List (Except String Expense)) (iterErr : Option String)

/-- The database behind `*sql.DB`, over a state `σ`: what each of the four statements
of the repository answers. -/
structure Database (σ : Type) where
  insertReturningID : String → Float64 → String → Nat → σ → Except String Int × σ
  selectAll : σ → RowsOutcome × σ
  selectByID : Int → σ → ScanOutcome × σ
  deleteByID : Int → σ → ExecOutcome × σ

/-- The `for rows.Next()` loop of `GetAll`: scan each row, stop at the first scan error. -/
def scanRows : List (Except String Expense) → List Expense → Except String (List Expense)
  | [], acc => .ok acc
  | .error msg :: _, _ => .error msg
  | .ok e :: rest, acc => scanRows rest (acc ++ [e])

/-- `(*PostgresRepository).Create`. -/
def PostgresRepository.Create {σ : Type} (db : Database σ) (e : Expense) (s : σ) :
    (Expense × Option AppError) × σ :=
  match db.insertReturningID e.Description e.Amount e.Category e.Date s with
  | (.error msg, s1) => ((e, some (.storage ("failed to insert expense: " ++ msg))), s1)
  | (.ok id, s1) => (({ e with ID := id }, none), s1)

/-- `(*PostgresRepository).GetAll`. -/
def PostgresRepository.GetAll {σ : Type} (db : Database σ) (s : σ) :
    (List Expense × Option AppError) × σ :=
  match db.selectAll s with
  | (.queryErr msg, s1) => (([], some (.storage ("failed to query expenses: " ++ msg))), s1)
  | (.rows scans iterErr, s1) =>
    match scanRows scans [] with
    | .error msg => (([], some (.storage ("failed to scan row: " ++ msg))), s1)
    | .ok expenses =>
      match iterErr with
      | some msg => (([], some (.storage ("rows iteration error: " ++ msg))), s1)
      | none => ((expenses, none), s1)

/-- `(*PostgresRepository).GetByID`. -/
def PostgresRepository.GetByID {σ : Type} (db : Database σ) (id : Int) (s : σ) :
    (Option Expense × Option AppError) × σ :=
  match db.selectByID id s with
  | (.noRows, s1) => ((none, some .notFound), s1)
  | (.err msg, s1) => ((none, some (.storage ("failed to get expense: " ++ msg))), s1)
  | (.row e, s1) => ((some e, none), s1)

/-- `(*PostgresRepository).Delete`. -/
def PostgresRepository.Delete {σ : Type} (db : Database σ) (id : Int) (s : σ) :
    Option AppError × σ :=
  match db.deleteByID id s with
  | (.execErr msg, s1) => (some (.storage ("failed to delete expense: " ++ msg)), s1)
  | (.rowsAffectedErr msg, s1) => (some (.storage msg), s1)
  | (.affected n, s1) => if n = 0 then (some .notFound, s1) else (none, s1)

/-- `NewPostgresRepository(db)`. -/
def NewPostgresRepository {σ : Type} (db : Database σ) : ExpenseRepository σ where
  Create := PostgresRepository.Create db
  GetAll := PostgresRepository.GetAll db
  GetByID := PostgresRepository.GetByID db
  Delete := PostgresRepository.Delete db

/-! ## Library routines used by the handlers -/

/-- `strings.TrimPrefix(s, prefix)`: `s` without the leading `prefix`, or `s` itself when
it does not start with `prefix`. -/
def TrimPrefix (s pre : String) : String :=
  if pre.data <+: s.data then String.mk (s.data.drop pre.data.length) else s

/-- The two failures of `strconv`: `ErrSyntax` and `ErrRange`. -/
inductive NumError where
  | syntaxErr
  | rangeErr
  deriving DecidableEq

/-- The digit loop of `strconv.ParseUint(s, 10, 64)`: a character outside `0`..`9` is a
syntax error (a letter gives a digit value of at least the base), `n >= cutoff` with
`cutoff = maxUint64/10 + 1` and an overflowing `n*10 + d` are range errors. -/
def parseUintLoop : List Char → Nat → Except NumError Nat
  | [], n => .ok n
  | c :: cs, n =>
    if 48 ≤ c.toNat ∧ c.toNat ≤ 57 then
      if n ≥ (2 ^ 64 - 1) / 10 + 1 then .error .rangeErr
      else if n * 10 + (c.toNat - 48) > 2 ^ 64 - 1 then .error .rangeErr
      else parseUintLoop cs (n * 10 + (c.toNat - 48))
    else .error .syntaxErr

/-- `strconv.ParseUint(s, 10, 64)` on the characters of `s`. -/
def ParseUint (s : List Char) : Except NumError Nat :=
  if s = [] then .error .syntaxErr else parseUintLoop s 0

/-- The part of `strconv.ParseInt` after the sign is picked off: convert unsigned, then
check the range against `cutoff = 1 << 63`. -/
def parseIntSigned (neg : Bool) (digits : List Char) : Except NumError Int :=
  match ParseUint digits with
  | .error .syntaxErr => .error .syntaxErr
  | .error .rangeErr => .error .rangeErr
  | .ok un =>
    if neg = false ∧ un ≥ 2 ^ 63 then .error .rangeErr
    else if neg = true ∧ un > 2 ^ 63 then .error .rangeErr
    else if neg = true then .ok (-(un : Int)) else .ok (un : Int)

/-- `strconv.ParseInt(s, 10, 64)`: an optional sign followed by decimal digits whose value
fits a signed 64-bit integer. -/
def ParseInt (s : String) : Except NumError Int :=
  match s.data with
  | [] => .error .syntaxErr
  | c :: cs =>
    if c = '+' then parseIntSigned false cs
    else if c = '-' then parseIntSigned true cs
    else parseIntSigned false (c :: cs)

/-! ## transport/handler.go -/

/-- The JSON payload of a create request, decoded. -/
structure CreateRequest where
  Description : String
  Amount : Float64
  Category : String
  deriving DecidableEq

/-- What a handler reads of `*http.Request`: the method, `URL.Path`, and the result of
decoding the body as a create request (`none` when `Decode` fails). -/
structure Request where
  Method : String
  Path : String
  Body : Option CreateRequest

/-- What a handler writes as the body. -/
inductive Body where
  | text (s : String)
  | expense (e : Option Expense)
  | expenses (l : List Expense)
  deriving DecidableEq

/-- What a handler writes to `http.ResponseWriter`: the status code (200 when
`WriteHeader` is not called), the `Content-Type` it sets, the body. -/
structure Response where
  status : Nat
  contentType : Option String
  body : Body
  deriving DecidableEq

/-- `http.Error(w, msg, code)`: plain-text content type, the status, the message and a
newline. -/
def httpError (msg : String) (code : Nat) : Response :=
  { status := code, contentType := some "text/plain; charset=utf-8", body := .text (msg ++ "\n") }

/-- `(*Handler).CreateExpenseHandler`. -/
def CreateExpenseHandler {τ : Type} (svc : ExpenseService τ) (r : Request)
    (w : Logged ServiceCall τ) : Response × Logged ServiceCall τ :=
  if r.Method ≠ "POST" then (httpError "Method not allowed" 405, w)
  else
    match r.Body with
    | none => (httpError "Invalid request body" 400, w)
    | some req =>
      let res := svc.RegisterExpense req.Description req.Amount req.Category w.st
      let w1 : Logged ServiceCall τ :=
        { st := res.2,
          calls := w.calls ++ [.RegisterExpense req.Description req.Amount req.Category] }
      match res.1.2 with
      | some err => (httpError err.Error 400, w1)
      | none =>
        ({ status := 201, contentType := some "application/json", body := .expense res.1.1 }, w1)

/-- `(*Handler).ListExpensesHandler`. -/
def ListExpensesHandler {τ : Type} (svc : ExpenseService τ) (r : Request)
    (w : Logged ServiceCall τ) : Response × Logged ServiceCall τ :=
  if r.Method ≠ "GET" then (httpError "Method not allowed" 405, w)
  else
    let res := svc.ListExpenses w.st
    let w1 : Logged ServiceCall τ := { st := res.2, calls := w.calls ++ [.ListExpenses] }
    match res.1.2 with
    | some _ => (httpError "Failed to fetch expenses" 500, w1)
    | none =>
      ({ status := 200, contentType := some "application/json", body := .expenses res.1.1 }, w1)

/-- `(*Handler).GetExpenseByIDHandler`. -/
def GetExpenseByIDHandler {τ : Type} (svc : ExpenseService τ) (r : Request)
    (w : Logged ServiceCall τ) : Response × Logged ServiceCall τ :=
  if r.Method ≠ "GET" then (httpError "Method not allowed" 405, w)
  else
    let idStr := TrimPrefix r.Path "/expenses/"
    match ParseInt idStr with
    | .error _ => (httpError "Invalid ID" 400, w)
    | .ok id =>
      let res := svc.GetExpenseDetails id w.st
      let w1 : Logged ServiceCall τ :=
        { st := res.2, calls := w.calls ++ [.GetExpenseDetails id] }
      match res.1.2 with
      | some _ => (httpError "Expense not found" 404, w1)
      | none =>
        ({ status := 200, contentType := some "application/json", body := .expense res.1.1 }, w1)

/-- `(*Handler).DeleteExpenseHandler`. -/
def DeleteExpenseHandler {τ : Type} (svc : ExpenseService τ) (r : Request)
    (w : Logged ServiceCall τ) : Response × Logged ServiceCall τ :=
  if r.Method ≠ "DELETE" then (httpError "Method not allowed" 405, w)
  else
    let idStr := TrimPrefix r.Path "/expenses/"
    if idStr = "" then (httpError "Missing ID" 400, w)
    else
      match ParseInt idStr with
      | .error _ => (httpError "Invalid ID format" 400, w)
      | .ok id =>
        let res := svc.RemoveExpense id w.st
        let w1 : Logged ServiceCall τ :=
          { st := res.2, calls := w.calls ++ [.RemoveExpense id] }
        match res.1 with
        | some err => (httpError err.Error 500, w1)
        | none => ({ status := 200, contentType := none, body := .text "Expense deleted" }, w1)

/-! ## Fixtures: a table in memory standing for the database -/

/-- A table of expense rows with its serial counter; `up = false` makes every statement
fail with a connection error. -/
structure Table where
  rows : List Expense
  serial : Int
  up : Bool
  deriving DecidableEq

/-- The four statements of the repository, answered from a `Table`. -/
def tableDB : Database Table where
  insertReturningID := fun d a c t s =>
    if s.up then
      (.ok (s.serial + 1),
        { s with rows := s.rows ++ [⟨s.serial + 1, d, a, c, t⟩], serial := s.serial + 1 })
    else (.error "connection refused", s)
  selectAll := fun s =>
    if s.up then (.rows (s.rows.map .ok) none, s) else (.queryErr "connection refused", s)
  selectByID := fun id s =>
    if s.up then
      match s.rows.find? (fun e => e.ID == id) with
      | some e => (.row e, s)
      | none => (.noRows, s)
    else (.err "connection refused", s)
  deleteByID := fun id s =>
    if s.up then
      (.affected ((s.rows.filter (fun e => e.ID == id)).length),
        { s with rows := s.rows.filter (fun e => e.ID != id) })
    else (.execErr "connection refused", s)

/-- A running database with no rows. -/
def emptyTable : Table := { rows := [], serial := 0, up := true }

/-- A database that cannot be reached. -/
def downTable : Table := { rows := [], serial := 0, up := false }

/-- The wiring of `server/main.go` over a `Table`: repository, service, and a fresh call log
on each layer. -/
def wired (t : Table) : Logged ServiceCall (Logged RepoCall Table) :=
  { st := { st := t, calls := [] }, calls := [] }

/-- The service of `server/main.go` over the table fixture. -/
def tableService (now : Nat) : ExpenseService (Logged RepoCall Table) :=
  NewExpenseService (NewPostgresRepository tableDB) now

/-! ## Lemmas about the comparisons with zero -/

theorem Float64.gtZero_excludes (x : Float64) (h : x.gtZero = true) :
    x.leZero = false ∧ x.eqZero = false := by
  unfold Float64.gtZero at h
  unfold Float64.leZero
  cases hn : x.isNaN <;> cases hz : x.eqZero <;> simp_all

theorem Float64.eqZero_leZero (x : Float64) (h : x.eqZero = true) : x.leZero = true := by
  unfold Float64.leZero Float64.isNaN
  unfold Float64.eqZero at h
  simp only [Bool.and_eq_true, beq_iff_eq] at h
  simp [h.1, Float64.eqZero]
  simp [h.2]

theorem Float64.nan_unordered : Float64.nan.leZero = false ∧ Float64.nan.gtZero = false ∧
    Float64.nan.eqZero = false := by
  decide

theorem Float64.zero_eqZero : Float64.zero.eqZero = true ∧ Float64.zero.gtZero = false := by
  decide

/-! ## Lemmas about the file store -/

theorem addExpense_expenses (d : String) (a : Float64) (c : String) (n : Nat)
    (o : SaveOutcome) (w : Cli) :
    (addExpense d a c n o w).expenses = w.expenses ++ [⟨nextID w.expenses, d, a, c, n⟩] := by
  cases o <;> rfl

theorem nextID_nil : nextID [] = 1 := rfl

theorem nextID_of_ne_nil (l : List Expense) (h : l ≠ []) :
    nextID l = wrapInt64 ((l.getLast h).ID + 1) := by
  unfold nextID
  rw [List.getLast?_eq_getLast l h]

theorem findIndexFrom_eq_none (id : Int) (l : List Expense) (i : Nat) :
    findIndexFrom id l i = none ↔ ∀ e ∈ l, e.ID ≠ id := by
  induction l generalizing i with
  | nil => simp [findIndexFrom]
  | cons x xs ih =>
    by_cases hx : x.ID = id
    · simp [findIndexFrom, hx]
    · simp [findIndexFrom, hx, ih]

theorem findIndexFrom_eq_some (id : Int) (l : List Expense) (i k : Nat)
    (h : findIndexFrom id l i = some k) :
    ∃ pre x post, l = pre ++ x :: post ∧ (∀ y ∈ pre, y.ID ≠ id) ∧ x.ID = id ∧
      k = i + pre.length := by
  induction l generalizing i with
  | nil => simp [findIndexFrom] at h
  | cons a as ih =>
    by_cases ha : a.ID = id
    · simp [findIndexFrom, ha] at h
      exact ⟨[], a, as, rfl, by simp, ha, by simp [h]⟩
    · simp [findIndexFrom, ha] at h
      obtain ⟨pre, x, post, hl, hpre, hx, hk⟩ := ih (i + 1) h
      refine ⟨a :: pre, x, post, by simp [hl], ?_, hx, ?_⟩
      · intro y hy
        rcases List.mem_cons.mp hy with rfl | hy
        · exact ha
        · exact hpre y hy
      · simp [hk]; omega

theorem deleteExpense_absent (id : Int) (o : SaveOutcome) (w : Cli)
    (h : ∀ e ∈ w.expenses, e.ID ≠ id) :
    deleteExpense id o w =
      { w with stdout := w.stdout ++ ["Expense with ID " ++ toString id ++ " not found\n"] } := by
  unfold deleteExpense
  rw [(findIndexFrom_eq_none id w.expenses 0).mpr h]

theorem deleteExpense_present (id : Int) (o : SaveOutcome) (w : Cli)
    (h : ∃ e ∈ w.expenses, e.ID = id) :
    ∃ pre x post, w.expenses = pre ++ x :: post ∧ (∀ y ∈ pre, y.ID ≠ id) ∧ x.ID = id ∧
      (deleteExpense id o w).expenses = pre ++ post ∧
      (deleteExpense id o w).saves = w.saves + 1 := by
  cases hf : findIndexFrom id w.expenses 0 with
  | none =>
    obtain ⟨e, he, hid⟩ := h
    exact absurd hid ((findIndexFrom_eq_none id w.expenses 0).mp hf e he)
  | some k =>
    obtain ⟨pre, x, post, hl, hpre, hx, hk⟩ := findIndexFrom_eq_some id w.expenses 0 k hf
    refine ⟨pre, x, post, hl, hpre, hx, ?_, ?_⟩
    · have hk2 : k = pre.length := by omega
      unfold deleteExpense
      rw [hf]
      cases o <;> simp [saveExpenses, hl, hk2]
    · unfold deleteExpense
      rw [hf]
      cases o <;> simp [saveExpenses]

theorem deleteExpense_sublist (id : Int) (o : SaveOutcome) (w : Cli) :
    (deleteExpense id o w).expenses.Sublist w.expenses := by
  by_cases h : ∃ e ∈ w.expenses, e.ID = id
  · obtain ⟨pre, x, post, hl, -, -, hd, -⟩ := deleteExpense_present id o w h
    rw [hd, hl]
    exact (List.Sublist.refl pre).append (List.sublist_cons_self x post)
  · have h2 : ∀ e ∈ w.expenses, e.ID ≠ id := fun e he hid => h ⟨e, he, hid⟩
    rw [deleteExpense_absent id o w h2]

theorem wrapInt64_of_inRange (x : Int) (h1 : -(2 ^ 63 : Int) ≤ x) (h2 : x < 2 ^ 63) :
    wrapInt64 x = x := by
  unfold wrapInt64
  omega

theorem wrapInt64_wrap_add (a b : Int) : wrapInt64 (wrapInt64 a + b) = wrapInt64 (a + b) := by
  unfold wrapInt64
  omega

theorem wrapInt64_range (x : Int) : -(2 ^ 63 : Int) ≤ wrapInt64 x ∧ wrapInt64 x < 2 ^ 63 := by
  unfold wrapInt64
  omega

theorem nextID_append_singleton (l : List Expense) (e : Expense) :
    nextID (l ++ [e]) = wrapInt64 (e.ID + 1) := by
  simp [nextID]

theorem deleteExpense_expenses_of_find (id : Int) (o : SaveOutcome) (w : Cli) (k : Nat)
    (h : findIndexFrom id w.expenses 0 = some k) :
    (deleteExpense id o w).expenses = w.expenses.take k ++ w.expenses.drop (k + 1) := by
  unfold deleteExpense
  rw [h]
  cases o <;> rfl

theorem run_append (ops₁ ops₂ : List Op) (w : Cli) :
    run (ops₁ ++ ops₂) w = run ops₂ (run ops₁ w) := by
  induction ops₁ generalizing w with
  | nil => rfl
  | cons op ops ih => simp [run, ih]

/-- One step of the invariant of the slices reached from an empty one with `k` adds,
`k < 2^64`: the residues of `ID - 1` modulo `2^64` strictly increase along the slice and
stay below `k`, so the next identifier has a larger residue, at most `k`. -/
theorem nextID_residue (k : Nat) (hk : (k : Int) < 2 ^ 64) (l : List Expense)
    (hinc : l.Pairwise (fun a b => (a.ID - 1) % 2 ^ 64 < (b.ID - 1) % 2 ^ 64))
    (hb : ∀ x ∈ l, (x.ID - 1) % 2 ^ 64 < k) :
    (∀ x ∈ l, (x.ID - 1) % 2 ^ 64 < (nextID l - 1) % 2 ^ 64) ∧
      (nextID l - 1) % 2 ^ 64 < k + 1 ∧
      -(2 ^ 63 : Int) ≤ nextID l ∧ nextID l < 2 ^ 63 := by
  induction l using List.reverseRecOn with
  | nil =>
    simp only [nextID_nil, List.not_mem_nil, false_implies, implies_true, true_and]
    omega
  | append_singleton init a _ =>
    have ha := hb a (by simp)
    rw [nextID_append_singleton]
    rw [List.pairwise_append] at hinc
    have hr := wrapInt64_range (a.ID + 1)
    have hres : (wrapInt64 (a.ID + 1) - 1) % 2 ^ 64 = (a.ID - 1) % 2 ^ 64 + 1 := by
      unfold wrapInt64
      omega
    refine ⟨?_, by omega, hr.1, hr.2⟩
    intro x hx
    rcases List.mem_append.mp hx with hx | hx
    · have := hinc.2.2 x hx a (by simp)
      omega
    · simp at hx
      subst hx
      omega

theorem run_residue (ops : List Op) (w : Cli) (k : Nat)
    (hk : ((k + countAdds ops : Nat) : Int) ≤ 2 ^ 64)
    (hinc : w.expenses.Pairwise (fun a b => (a.ID - 1) % 2 ^ 64 < (b.ID - 1) % 2 ^ 64))
    (hb : ∀ x ∈ w.expenses,
      (x.ID - 1) % 2 ^ 64 < k ∧ -(2 ^ 63 : Int) ≤ x.ID ∧ x.ID < 2 ^ 63) :
    (run ops w).expenses.Pairwise (fun a b => (a.ID - 1) % 2 ^ 64 < (b.ID - 1) % 2 ^ 64) ∧
      ∀ x ∈ (run ops w).expenses,
        (x.ID - 1) % 2 ^ 64 < ((k + countAdds ops : Nat) : Int) ∧
          -(2 ^ 63 : Int) ≤ x.ID ∧ x.ID < 2 ^ 63 := by
  induction ops generalizing w k with
  | nil => exact ⟨hinc, by simpa [countAdds] using hb⟩
  | cons op ops ih =>
    cases op with
    | add d a c n o =>
      simp only [countAdds] at hk ⊢
      have hk1 : (k : Int) < 2 ^ 64 := by push_cast at hk; omega
      obtain ⟨hlt, hle, hr1, hr2⟩ :=
        nextID_residue k hk1 w.expenses hinc (fun x hx => (hb x hx).1)
      have hstep := ih (addExpense d a c n o w) (k + 1) (by push_cast at hk ⊢; omega) ?_ ?_
      · have he : k + 1 + countAdds ops = k + (countAdds ops + 1) := by omega
        rw [he] at hstep
        exact hstep
      · rw [addExpense_expenses, List.pairwise_append]
        refine ⟨hinc, by simp, ?_⟩
        intro x hx y hy
        simp at hy
        subst hy
        exact hlt x hx
      · rw [addExpense_expenses]
        intro x hx
        rcases List.mem_append.mp hx with hx | hx
        · have := hb x hx
          push_cast
          omega
        · simp at hx
          subst hx
          push_cast
          exact ⟨hle, hr1, hr2⟩
    | delete i o =>
      simp only [countAdds] at hk ⊢
      have hsub := deleteExpense_sublist i o w
      exact ih (deleteExpense i o w) k hk (hinc.sublist hsub)
        (fun x hx => hb x (hsub.subset hx))

theorem run_from_empty_residue (ops : List Op) (w0 : Cli) (h0 : w0.expenses = [])
    (hk : countAdds ops ≤ 2 ^ 64) :
    (run ops w0).expenses.Pairwise (fun a b => (a.ID - 1) % 2 ^ 64 < (b.ID - 1) % 2 ^ 64) ∧
      ∀ x ∈ (run ops w0).expenses,
        (x.ID - 1) % 2 ^ 64 < (countAdds ops : Int) ∧
          -(2 ^ 63 : Int) ≤ x.ID ∧ x.ID < 2 ^ 63 := by
  have h := run_residue ops w0 0 (by simp; exact_mod_cast hk)
    (by rw [h0]; exact List.Pairwise.nil) (by rw [h0]; simp)
  simpa using h

/-- While fewer than `2^63` adds were made the identifiers have not wrapped: they strictly
increase along the slice and lie between `1` and the number of adds. -/
theorem run_from_empty_bounded (ops : List Op) (w0 : Cli) (h0 : w0.expenses = [])
    (hk : countAdds ops < 2 ^ 63) :
    (run ops w0).expenses.Pairwise (fun a b => a.ID < b.ID) ∧
      ∀ x ∈ (run ops w0).expenses, 1 ≤ x.ID ∧ x.ID ≤ (countAdds ops : Int) := by
  have hcast : ((countAdds ops : Nat) : Int) < 2 ^ 63 := by exact_mod_cast hk
  obtain ⟨hinc, hb⟩ := run_from_empty_residue ops w0 h0 (by omega)
  constructor
  · refine hinc.imp_of_mem ?_
    intro x y hx hy hxy
    have h1 := hb x hx
    have h2 := hb y hy
    omega
  · intro x hx
    have h1 := hb x hx
    omega

theorem lt_nextID_of_bounded (k : Nat) (hk : (k : Int) < 2 ^ 63 - 1) (l : List Expense)
    (hinc : l.Pairwise (fun a b => a.ID < b.ID))
    (hb : ∀ x ∈ l, 1 ≤ x.ID ∧ x.ID ≤ k) :
    (∀ x ∈ l, x.ID < nextID l) ∧ 1 ≤ nextID l ∧ nextID l ≤ k + 1 := by
  induction l using List.reverseRecOn with
  | nil => simp [nextID]
  | append_singleton init a _ =>
    have ha := hb a (by simp)
    have hw : wrapInt64 (a.ID + 1) = a.ID + 1 := wrapInt64_of_inRange _ (by omega) (by omega)
    rw [nextID_append_singleton, hw]
    rw [List.pairwise_append] at hinc
    refine ⟨?_, by omega, by omega⟩
    intro x hx
    rcases List.mem_append.mp hx with hx | hx
    · have := hinc.2.2 x hx a (by simp)
      omega
    · simp at hx
      subst hx
      omega

theorem foldl_max_of_increasing (e : Expense) (rest : List Expense)
    (h : (e :: rest).Pairwise (fun a b => a.ID < b.ID)) :
    rest.foldl (fun m x => max m x.ID) e.ID =
      ((e :: rest).getLast (List.cons_ne_nil e rest)).ID := by
  induction rest generalizing e with
  | nil => simp
  | cons r rs ih =>
    have hlt : e.ID < r.ID := (List.pairwise_cons.mp h).1 r (by simp)
    have htail : (r :: rs).Pairwise (fun a b => a.ID < b.ID) := (List.pairwise_cons.mp h).2
    have hmax : max e.ID r.ID = r.ID := max_eq_right (le_of_lt hlt)
    rw [List.foldl_cons, hmax, ih r htail]
    simp [List.getLast_cons]

theorem expenses_of_ids_pair (l : List Expense) (x y : Int)
    (h : l.map (fun e => e.ID) = [x, y]) : ∃ r1 r2, l = [r1, r2] ∧ r1.ID = x ∧ r2.ID = y := by
  match l, h with
  | [r1, r2], h =>
    simp at h
    exact ⟨r1, r2, rfl, h.1, h.2⟩

theorem spin_round (x : Int) (w : Cli) (hx : x ≠ 1)
    (h : w.expenses.map (fun e => e.ID) = [1, x]) :
    (deleteExpense x .ok
        (addExpense "Tea" Float64.twelveAndHalf "Food" 0 .ok w)).expenses.map (fun e => e.ID) =
      [1, wrapInt64 (x + 1)] := by
  obtain ⟨r1, r2, hl, h1, h2⟩ := expenses_of_ids_pair _ _ _ h
  have hadd := addExpense_expenses "Tea" Float64.twelveAndHalf "Food" 0 .ok w
  have hnext : nextID w.expenses = wrapInt64 (x + 1) := by
    rw [hl]
    simp [nextID, h2]
  rw [hnext, hl] at hadd
  have hfind : findIndexFrom x
      (addExpense "Tea" Float64.twelveAndHalf "Food" 0 .ok w).expenses 0 = some 1 := by
    rw [hadd]
    have h1x : ¬ r1.ID = x := by rw [h1]; exact fun hh => hx hh.symm
    simp [findIndexFrom, h1x, h2]
  rw [deleteExpense_expenses_of_find x .ok _ 1 hfind, hadd]
  simp [h1]

theorem run_spin (n : Nat) (x : Int) (w : Cli)
    (hx1 : -(2 ^ 63 : Int) ≤ x) (hx2 : x < 2 ^ 63)
    (hne : ∀ k : Nat, k < n → wrapInt64 (x + k) ≠ 1)
    (h : w.expenses.map (fun e => e.ID) = [1, x]) :
    (run (spin n x) w).expenses.map (fun e => e.ID) = [1, wrapInt64 (x + n)] := by
  induction n generalizing x w with
  | zero =>
    simp only [spin, run, Nat.cast_zero, add_zero]
    rw [wrapInt64_of_inRange x hx1 hx2]
    exact h
  | succ n ih =>
    have hx : x ≠ 1 := by
      have := hne 0 (Nat.succ_pos n)
      simpa [wrapInt64_of_inRange x hx1 hx2] using this
    have hround := spin_round x w hx h
    have hr := wrapInt64_range (x + 1)
    have hstep := ih (wrapInt64 (x + 1)) _ hr.1 hr.2 ?_ hround
    · simp only [spin, run, Op.apply]
      rw [hstep, wrapInt64_wrap_add]
      congr 2
      push_cast
      ring_nf
    · intro k hk
      rw [wrapInt64_wrap_add]
      have := hne (k + 1) (Nat.succ_lt_succ hk)
      have he : x + ((k + 1 : Nat) : Int) = x + 1 + (k : Int) := by push_cast; ring
      rw [he] at this
      exact this

theorem run_twoThenSpin (n : Nat) (hn : n < 2 ^ 64) :
    (run (twoThenSpin n) Cli.empty).expenses.map (fun e => e.ID) =
      [1, wrapInt64 (2 + n)] := by
  have h2 : (run (spin n 2)
      (addExpense "Bus" Float64.twelveAndHalf "Travel" 0 .ok
        (addExpense "Lunch" Float64.twelveAndHalf "Food" 0 .ok Cli.empty))).expenses.map
        (fun e => e.ID) = [1, wrapInt64 (2 + n)] := by
    apply run_spin n 2 _ (by norm_num) (by norm_num)
    · intro k hk
      unfold wrapInt64
      omega
    · decide
  exact h2

theorem addExpense_ids (d : String) (a : Float64) (c : String) (n : Nat) (o : SaveOutcome)
    (w : Cli) :
    (addExpense d a c n o w).expenses.map (fun e => e.ID) =
      w.expenses.map (fun e => e.ID) ++ [nextID w.expenses] := by
  rw [addExpense_expenses]
  simp

/-! ## Claims about the file store -/

/-- C2 as stated fails: on a slice whose last id is 9223372036854775807 the appended record
gets the id -9223372036854775808, not the last id plus one. -/
theorem addExpense_wraps_at_max_int :
    (addExpense "Tea" Float64.twelveAndHalf "Food" 2 .ok
        ⟨[⟨9223372036854775807, "Lunch", Float64.twelveAndHalf, "Food", 1⟩], none, [], 0⟩).expenses =
      [⟨9223372036854775807, "Lunch", Float64.twelveAndHalf, "Food", 1⟩,
        ⟨-9223372036854775808, "Tea", Float64.twelveAndHalf, "Food", 2⟩] ∧
      (-9223372036854775808 : Int) ≠ 9223372036854775807 + 1 := by
  decide

/-- C2, amended: `addExpense` leaves the slice equal to the old one with exactly one record
appended at the end, for every outcome of the save; the record carries the given
description, amount and category, and its id is 1 for an empty slice and otherwise the
last record's id plus one as an `int` addition: the last id plus one when the last id is
below 9223372036854775807, and -9223372036854775808 when it is 9223372036854775807. -/
theorem addExpense_appends_one (d : String) (a : Float64) (c : String) (n : Nat)
    (o : SaveOutcome) (w : Cli) :
    ∃ e : Expense, (addExpense d a c n o w).expenses = w.expenses ++ [e] ∧
      e.Description = d ∧ e.Amount = a ∧ e.Category = c ∧
      (w.expenses = [] → e.ID = 1) ∧
      (∀ h : w.expenses ≠ [],
        e.ID = wrapInt64 ((w.expenses.getLast h).ID + 1) ∧
        (-(2 ^ 63 : Int) ≤ (w.expenses.getLast h).ID →
          (w.expenses.getLast h).ID < 2 ^ 63 - 1 → e.ID = (w.expenses.getLast h).ID + 1) ∧
        ((w.expenses.getLast h).ID = 2 ^ 63 - 1 → e.ID = -(2 ^ 63 : Int))) := by
  refine ⟨⟨nextID w.expenses, d, a, c, n⟩, addExpense_expenses d a c n o w, rfl, rfl, rfl, ?_, ?_⟩
  · intro h
    show nextID w.expenses = 1
    rw [h]
    rfl
  · intro h
    have hn : nextID w.expenses = wrapInt64 ((w.expenses.getLast h).ID + 1) :=
      nextID_of_ne_nil w.expenses h
    refine ⟨hn, ?_, ?_⟩
    · intro h1 h2
      show nextID w.expenses = _
      rw [hn]
      exact wrapInt64_of_inRange _ (by omega) (by omega)
    · intro h1
      show nextID w.expenses = _
      rw [hn, h1]
      unfold wrapInt64
      norm_num

/-- C3: when no record has the id, `deleteExpense` leaves the slice (and the file) as it
was and does not run the save; otherwise it removes the first record with that id and
keeps every other record, in order. -/
theorem deleteExpense_first_match (id : Int) (o : SaveOutcome) (w : Cli) :
    ((∀ e ∈ w.expenses, e.ID ≠ id) →
      (deleteExpense id o w).expenses = w.expenses ∧
      (deleteExpense id o w).saves = w.saves ∧ (deleteExpense id o w).file = w.file) ∧
    ((∃ e ∈ w.expenses, e.ID = id) →
      ∃ pre x post, w.expenses = pre ++ x :: post ∧ (∀ y ∈ pre, y.ID ≠ id) ∧ x.ID = id ∧
        (deleteExpense id o w).expenses = pre ++ post) := by
  constructor
  · intro h
    rw [deleteExpense_absent id o w h]
    exact ⟨rfl, rfl, rfl⟩
  · intro h
    obtain ⟨pre, x, post, hl, hpre, hx, hd, -⟩ := deleteExpense_present id o w h
    exact ⟨pre, x, post, hl, hpre, hx, hd⟩


/-- C4 as stated fails: two adds followed by 18446744073709551615 rounds of add-then-delete
(2^64 + 1 adds in all) carry the second id once around the `int` range, and leave two
records with the id 1. -/
theorem ids_repeat_after_wrap :
    (run (twoThenSpin 18446744073709551615) Cli.empty).expenses.map (fun e => e.ID) = [1, 1] ∧
      ¬ ((run (twoThenSpin 18446744073709551615) Cli.empty).expenses.map
        (fun e => e.ID)).Nodup := by
  have h := run_twoThenSpin 18446744073709551615 (by norm_num)
  have hw : wrapInt64 (2 + ((18446744073709551615 : Nat) : Int)) = 1 := by
    unfold wrapInt64
    norm_num
  rw [hw] at h
  rw [h]
  exact ⟨rfl, by decide⟩

/-- C4, amended: in every state reached from an empty slice by a sequence of `addExpense`
and `deleteExpense` calls with at most 2^64 adds, no two records have the same id. -/
theorem ids_unique_below_wrap (ops : List Op) (w0 : Cli) (h0 : w0.expenses = [])
    (hk : countAdds ops ≤ 2 ^ 64) :
    ((run ops w0).expenses.map (fun e => e.ID)).Nodup := by
  have hp := (run_from_empty_residue ops w0 h0 hk).1
  rw [List.Nodup, List.pairwise_map]
  refine hp.imp ?_
  intro x y hxy heq
  rw [heq] at hxy
  exact lt_irrefl _ hxy

theorem ids_unique_below_wrap_witness :
    (run [.add "Lunch" Float64.twelveAndHalf "Food" 1 .ok,
          .add "Bus" Float64.twelveAndHalf "Travel" 2 .ok,
          .add "Tea" Float64.twelveAndHalf "Food" 3 .ok, .delete 2 .ok,
          .add "Book" Float64.twelveAndHalf "Study" 4 .ok] Cli.empty).expenses.map
        (fun e => e.ID) = [1, 3, 4] ∧
      ((run [.add "Lunch" Float64.twelveAndHalf "Food" 1 .ok,
          .add "Bus" Float64.twelveAndHalf "Travel" 2 .ok,
          .add "Tea" Float64.twelveAndHalf "Food" 3 .ok, .delete 2 .ok,
          .add "Book" Float64.twelveAndHalf "Study" 4 .ok] Cli.empty).expenses.map
        (fun e => e.ID)).Nodup :=
  ⟨by decide, ids_unique_below_wrap _ Cli.empty rfl (by decide)⟩

/-- C5 as stated fails: add, delete that record, add again hands out the id 1 twice. -/
theorem assignedIDs_reuse_after_delete :
    assignedIDs
        [.add "Lunch" Float64.twelveAndHalf "Food" 1 .ok, .delete 1 .ok,
          .add "Tea" Float64.twelveAndHalf "Food" 2 .ok] Cli.empty = [1, 1] ∧
      ¬ (assignedIDs
        [.add "Lunch" Float64.twelveAndHalf "Food" 1 .ok, .delete 1 .ok,
          .add "Tea" Float64.twelveAndHalf "Food" 2 .ok] Cli.empty).Nodup := by
  decide

/-- C5, amended: after a sequence of `addExpense` and `deleteExpense` calls from an empty
slice, a further `addExpense` (at most 2^64 adds in all) appends a record whose id differs
from the id of every record then in the slice; while the adds number fewer than 2^63 it
is strictly greater than all of them. -/
theorem add_id_differs_from_present (ops : List Op) (w0 : Cli) (h0 : w0.expenses = [])
    (hk : countAdds ops + 1 ≤ 2 ^ 64)
    (d : String) (a : Float64) (c : String) (n : Nat) (o : SaveOutcome) :
    ∃ e : Expense,
      (run (ops ++ [.add d a c n o]) w0).expenses = (run ops w0).expenses ++ [e] ∧
      (∀ x ∈ (run ops w0).expenses, x.ID ≠ e.ID) ∧
      (countAdds ops + 1 < 2 ^ 63 → ∀ x ∈ (run ops w0).expenses, x.ID < e.ID) := by
  refine ⟨⟨nextID (run ops w0).expenses, d, a, c, n⟩, ?_, ?_, ?_⟩
  · rw [run_append]
    exact addExpense_expenses d a c n o _
  · have hb := run_from_empty_residue ops w0 h0 (by omega)
    have hcast : ((countAdds ops + 1 : Nat) : Int) ≤ 2 ^ 64 := by exact_mod_cast hk
    have hlt := nextID_residue (countAdds ops) (by push_cast at hcast; omega) _ hb.1
      (fun x hx => (hb.2 x hx).1)
    intro x hx heq
    have := hlt.1 x hx
    change x.ID = nextID (run ops w0).expenses at heq
    rw [heq] at this
    exact lt_irrefl _ this
  · intro hk2
    have hb := run_from_empty_bounded ops w0 h0 (by omega)
    have hcast : ((countAdds ops + 1 : Nat) : Int) < 2 ^ 63 := by exact_mod_cast hk2
    have hlt := lt_nextID_of_bounded (countAdds ops) (by push_cast at hcast; omega) _ hb.1 hb.2
    exact hlt.1

theorem add_id_differs_from_present_witness :
    (run [.add "Lunch" Float64.twelveAndHalf "Food" 1 .ok,
          .add "Bus" Float64.twelveAndHalf "Travel" 2 .ok,
          .add "Tea" Float64.twelveAndHalf "Food" 3 .ok, .delete 2 .ok]
        Cli.empty).expenses.map (fun e => e.ID) = [1, 3] ∧
    ∃ e : Expense,
      (run ([.add "Lunch" Float64.twelveAndHalf "Food" 1 .ok,
          .add "Bus" Float64.twelveAndHalf "Travel" 2 .ok,
          .add "Tea" Float64.twelveAndHalf "Food" 3 .ok, .delete 2 .ok] ++
          [.add "Book" Float64.twelveAndHalf "Study" 4 .ok]) Cli.empty).expenses =
        (run [.add "Lunch" Float64.twelveAndHalf "Food" 1 .ok,
          .add "Bus" Float64.twelveAndHalf "Travel" 2 .ok,
          .add "Tea" Float64.twelveAndHalf "Food" 3 .ok, .delete 2 .ok]
          Cli.empty).expenses ++ [e] ∧
      (∀ x ∈ (run [.add "Lunch" Float64.twelveAndHalf "Food" 1 .ok,
          .add "Bus" Float64.twelveAndHalf "Travel" 2 .ok,
          .add "Tea" Float64.twelveAndHalf "Food" 3 .ok, .delete 2 .ok]
          Cli.empty).expenses, x.ID ≠ e.ID) ∧
      (countAdds [.add "Lunch" Float64.twelveAndHalf "Food" 1 .ok,
          .add "Bus" Float64.twelveAndHalf "Travel" 2 .ok,
          .add "Tea" Float64.twelveAndHalf "Food" 3 .ok, .delete 2 .ok] + 1 < 2 ^ 63 →
        ∀ x ∈ (run [.add "Lunch" Float64.twelveAndHalf "Food" 1 .ok,
          .add "Bus" Float64.twelveAndHalf "Travel" 2 .ok,
          .add "Tea" Float64.twelveAndHalf "Food" 3 .ok, .delete 2 .ok]
          Cli.empty).expenses, x.ID < e.ID) :=
  ⟨by decide, add_id_differs_from_present _ Cli.empty rfl (by decide) _ _ _ _ _⟩

/-- The bound of 2^64 adds cannot be raised: two adds followed by 18446744073709551614
rounds of add-then-delete leave the ids 1 and 0, and the next add assigns the id 1 again. -/
theorem add_id_repeats_present_after_wrap :
    (run (twoThenSpin 18446744073709551614) Cli.empty).expenses.map (fun e => e.ID) = [1, 0] ∧
      (addExpense "Tea" Float64.twelveAndHalf "Food" 0 .ok
        (run (twoThenSpin 18446744073709551614) Cli.empty)).expenses.map (fun e => e.ID) =
        [1, 0, 1] := by
  have h := run_twoThenSpin 18446744073709551614 (by norm_num)
  have hw : wrapInt64 (2 + ((18446744073709551614 : Nat) : Int)) = 0 := by
    unfold wrapInt64
    norm_num
  rw [hw] at h
  obtain ⟨r1, r2, hl, h1, h2⟩ := expenses_of_ids_pair _ _ _ h
  refine ⟨h, ?_⟩
  rw [addExpense_ids, h, hl]
  simp only [nextID, List.getLast?_cons_cons, List.getLast?_singleton, h2, wrapInt64]
  norm_num

/-- C6: on a slice whose ids are pairwise distinct, deleting an id that some record holds
leaves exactly one record fewer, none of which has that id, so that a later scan for the
id finds nothing. -/
theorem deleteExpense_removes_exactly_one (id : Int) (o : SaveOutcome) (w : Cli)
    (hnd : (w.expenses.map (fun e => e.ID)).Nodup) (hmem : ∃ e ∈ w.expenses, e.ID = id) :
    (deleteExpense id o w).expenses.length + 1 = w.expenses.length ∧
      (∀ e ∈ (deleteExpense id o w).expenses, e.ID ≠ id) ∧
      findIndexFrom id (deleteExpense id o w).expenses 0 = none := by
  obtain ⟨pre, x, post, hl, hpre, hx, hd, -⟩ := deleteExpense_present id o w hmem
  have hno : ∀ e ∈ (deleteExpense id o w).expenses, e.ID ≠ id := by
    rw [hd]
    intro e he
    rcases List.mem_append.mp he with he | he
    · exact hpre e he
    · intro hid
      rw [hl, List.map_append, List.map_cons, List.nodup_append] at hnd
      have hxs := (List.nodup_cons.mp hnd.2.1).1
      apply hxs
      rw [hx, ← hid]
      exact List.mem_map_of_mem (fun e => e.ID) he
  refine ⟨?_, hno, (findIndexFrom_eq_none id _ 0).mpr hno⟩
  rw [hd, hl]
  simp
  omega

theorem deleteExpense_removes_exactly_one_witness :
    (deleteExpense 1 .ok
        (addExpense "Tea" Float64.twelveAndHalf "Food" 2 .ok
          (addExpense "Lunch" Float64.twelveAndHalf "Food" 1 .ok Cli.empty))).expenses.length + 1 =
      (addExpense "Tea" Float64.twelveAndHalf "Food" 2 .ok
          (addExpense "Lunch" Float64.twelveAndHalf "Food" 1 .ok Cli.empty)).expenses.length ∧
      (∀ e ∈ (deleteExpense 1 .ok
        (addExpense "Tea" Float64.twelveAndHalf "Food" 2 .ok
          (addExpense "Lunch" Float64.twelveAndHalf "Food" 1 .ok Cli.empty))).expenses,
        e.ID ≠ 1) ∧
      findIndexFrom 1 (deleteExpense 1 .ok
        (addExpense "Tea" Float64.twelveAndHalf "Food" 2 .ok
          (addExpense "Lunch" Float64.twelveAndHalf "Food" 1 .ok Cli.empty))).expenses 0 = none :=
  deleteExpense_removes_exactly_one 1 .ok _ (by decide) (by decide)

/-- C9 as stated fails: `add -desc Refund -amount -5` appends a record although the
amount is not greater than zero. -/
theorem mainAdd_accepts_negative_amount :
    (mainAdd "Refund" Float64.minusFive "General" 1 .ok Cli.empty).expenses =
        [⟨1, "Refund", Float64.minusFive, "General", 1⟩] ∧
      (mainAdd "Refund" Float64.minusFive "General" 1 .ok Cli.empty).expenses ≠
        Cli.empty.expenses ∧
      Float64.minusFive.gtZero = false := by
  decide

/-- C9, amended: if the add subcommand appends a record to the store then the description
is not the empty string and the amount is not equal to zero; and in that case it does
append the record. -/
theorem mainAdd_appends_iff (d : String) (a : Float64) (c : String) (n : Nat)
    (o : SaveOutcome) (w : Cli) :
    ((mainAdd d a c n o w).expenses ≠ w.expenses → d ≠ "" ∧ a.eqZero = false) ∧
    (d ≠ "" ∧ a.eqZero = false →
      (mainAdd d a c n o w).expenses = w.expenses ++ [⟨nextID w.expenses, d, a, c, n⟩]) := by
  unfold mainAdd
  by_cases hd : d = ""
  · simp [hd]
  · cases hz : a.eqZero
    · simp [hd, addExpense_expenses]
    · simp [hd]

/-- C10 as stated fails: two adds followed by 9223372036854775805 rounds of add-then-delete
leave the ids 1 and 9223372036854775807, where the next add (the 2^63-th) assigns
-9223372036854775808 while the maximum id plus one is 9223372036854775808; one round later
the ids are 1 and -9223372036854775808, the next add assigns -9223372036854775807 and the
maximum id plus one is 2. -/
theorem add_id_not_max_after_wrap :
    ((run (twoThenSpin 9223372036854775805) Cli.empty).expenses.map (fun e => e.ID) =
        [1, 9223372036854775807] ∧
      (addExpense "Tea" Float64.twelveAndHalf "Food" 0 .ok
        (run (twoThenSpin 9223372036854775805) Cli.empty)).expenses.map (fun e => e.ID) =
        [1, 9223372036854775807, -9223372036854775808] ∧
      maxExistingPlusOne (run (twoThenSpin 9223372036854775805) Cli.empty).expenses =
        9223372036854775808) ∧
    ((run (twoThenSpin 9223372036854775806) Cli.empty).expenses.map (fun e => e.ID) =
        [1, -9223372036854775808] ∧
      (addExpense "Tea" Float64.twelveAndHalf "Food" 0 .ok
        (run (twoThenSpin 9223372036854775806) Cli.empty)).expenses.map (fun e => e.ID) =
        [1, -9223372036854775808, -9223372036854775807] ∧
      maxExistingPlusOne (run (twoThenSpin 9223372036854775806) Cli.empty).expenses = 2) := by
  constructor
  · have h := run_twoThenSpin 9223372036854775805 (by norm_num)
    have hw : wrapInt64 (2 + ((9223372036854775805 : Nat) : Int)) = 9223372036854775807 := by
      unfold wrapInt64
      norm_num
    rw [hw] at h
    obtain ⟨r1, r2, hl, h1, h2⟩ := expenses_of_ids_pair _ _ _ h
    refine ⟨h, ?_, ?_⟩
    · rw [addExpense_ids, h, hl]
      simp only [nextID, List.getLast?_cons_cons, List.getLast?_singleton, h2, wrapInt64]
      norm_num
    · rw [hl]
      simp only [maxExistingPlusOne, List.foldl_cons, List.foldl_nil, h1, h2]
      norm_num
  · have h := run_twoThenSpin 9223372036854775806 (by norm_num)
    have hw : wrapInt64 (2 + ((9223372036854775806 : Nat) : Int)) = -9223372036854775808 := by
      unfold wrapInt64
      norm_num
    rw [hw] at h
    obtain ⟨r1, r2, hl, h1, h2⟩ := expenses_of_ids_pair _ _ _ h
    refine ⟨h, ?_, ?_⟩
    · rw [addExpense_ids, h, hl]
      simp only [nextID, List.getLast?_cons_cons, List.getLast?_singleton, h2, wrapInt64]
      norm_num
    · rw [hl]
      simp only [maxExistingPlusOne, List.foldl_cons, List.foldl_nil, h1, h2]
      norm_num

/-- C10, amended: on every non-empty slice reached from an empty one by a sequence of
`addExpense` and `deleteExpense` calls, the id the next `addExpense` assigns equals the
maximum id of the slice plus one, as long as the adds, this one included, number fewer
than 2^63. -/
theorem add_id_eq_max_plus_one (ops : List Op) (w0 : Cli) (h0 : w0.expenses = [])
    (hk : countAdds ops + 1 < 2 ^ 63) (hne : (run ops w0).expenses ≠ [])
    (d : String) (a : Float64) (c : String) (n : Nat) (o : SaveOutcome) :
    ∃ e : Expense,
      (addExpense d a c n o (run ops w0)).expenses = (run ops w0).expenses ++ [e] ∧
      e.ID = maxExistingPlusOne (run ops w0).expenses := by
  refine ⟨⟨nextID (run ops w0).expenses, d, a, c, n⟩, addExpense_expenses d a c n o _, ?_⟩
  show nextID (run ops w0).expenses = _
  have hb := run_from_empty_bounded ops w0 h0 (by omega)
  have hcast : ((countAdds ops : Nat) : Int) + 1 < 2 ^ 63 := by exact_mod_cast hk
  cases hw : (run ops w0).expenses with
  | nil => exact absurd hw hne
  | cons e rest =>
    rw [hw] at hb
    have hlast := hb.2 ((e :: rest).getLast (List.cons_ne_nil e rest))
      (List.getLast_mem _)
    rw [nextID_of_ne_nil (e :: rest) (List.cons_ne_nil e rest)]
    rw [wrapInt64_of_inRange _ (by omega) (by omega)]
    simp only [maxExistingPlusOne]
    rw [foldl_max_of_increasing e rest hb.1]

theorem add_id_eq_max_plus_one_witness :
    (run [.add "Lunch" Float64.twelveAndHalf "Food" 1 .ok,
          .add "Bus" Float64.twelveAndHalf "Travel" 2 .ok,
          .add "Tea" Float64.twelveAndHalf "Food" 3 .ok, .delete 2 .ok]
        Cli.empty).expenses.map (fun e => e.ID) = [1, 3] ∧
    ∃ e : Expense,
      (addExpense "Book" Float64.twelveAndHalf "Study" 4 .ok
        (run [.add "Lunch" Float64.twelveAndHalf "Food" 1 .ok,
          .add "Bus" Float64.twelveAndHalf "Travel" 2 .ok,
          .add "Tea" Float64.twelveAndHalf "Food" 3 .ok, .delete 2 .ok] Cli.empty)).expenses =
        (run [.add "Lunch" Float64.twelveAndHalf "Food" 1 .ok,
          .add "Bus" Float64.twelveAndHalf "Travel" 2 .ok,
          .add "Tea" Float64.twelveAndHalf "Food" 3 .ok, .delete 2 .ok]
          Cli.empty).expenses ++ [e] ∧
      e.ID = maxExistingPlusOne (run [.add "Lunch" Float64.twelveAndHalf "Food" 1 .ok,
          .add "Bus" Float64.twelveAndHalf "Travel" 2 .ok,
          .add "Tea" Float64.twelveAndHalf "Food" 3 .ok, .delete 2 .ok] Cli.empty).expenses :=
  ⟨by decide, add_id_eq_max_plus_one _ Cli.empty rfl (by decide) (by decide) _ _ _ _ _⟩

/-! ## Claims about the HTTP service -/

theorem TrimPrefix_append (pre rest : String) : TrimPrefix (pre ++ rest) pre = rest := by
  unfold TrimPrefix
  rw [String.data_append, if_pos (List.prefix_append _ _), List.drop_left]

theorem ParseInt_empty : ParseInt "" = .error .syntaxErr := rfl

theorem ParseInt_examples :
    ParseInt "42" = .ok 42 ∧ ParseInt "+7" = .ok 7 ∧ ParseInt "-0" = .ok 0 ∧
      ParseInt "9223372036854775807" = .ok 9223372036854775807 ∧
      ParseInt "-9223372036854775808" = .ok (-9223372036854775808) ∧
      ParseInt "9223372036854775808" = .error .rangeErr ∧
      ParseInt "-9223372036854775809" = .error .rangeErr ∧
      ParseInt "99999999999999999999" = .error .rangeErr ∧
      ParseInt "12a" = .error .syntaxErr ∧ ParseInt "1 2" = .error .syntaxErr ∧
      ParseInt "-" = .error .syntaxErr ∧ ParseInt "abc" = .error .syntaxErr :=
  ⟨rfl, rfl, rfl, rfl, rfl, rfl, rfl, rfl, rfl, rfl, rfl, rfl⟩

theorem parseIntSigned_range (neg : Bool) (ds : List Char) (n : Int)
    (h : parseIntSigned neg ds = .ok n) : -(2 ^ 63 : Int) ≤ n ∧ n < 2 ^ 63 := by
  unfold parseIntSigned at h
  split at h
  · cases h
  · cases h
  · rename_i un _
    split_ifs at h with h1 h2 h3
    · injection h with h
      cases neg <;> simp_all
      omega
    · injection h with h
      cases neg <;> simp_all
      omega

theorem ParseInt_range (s : String) (n : Int) (h : ParseInt s = .ok n) :
    -(2 ^ 63 : Int) ≤ n ∧ n < 2 ^ 63 := by
  unfold ParseInt at h
  split at h
  · cases h
  · split_ifs at h <;> exact parseIntSigned_range _ _ n h

theorem delete_end_to_end :
    (DeleteExpenseHandler (tableService 0) ⟨"DELETE", "/expenses/1", none⟩
        (wired ⟨[⟨1, "Lunch", Float64.twelveAndHalf, "Food", 0⟩], 1, true⟩)).1 =
      { status := 200, contentType := none, body := .text "Expense deleted" } ∧
    (DeleteExpenseHandler (tableService 0) ⟨"DELETE", "/expenses/", none⟩
        (wired emptyTable)).1.status = 400 ∧
    (DeleteExpenseHandler (tableService 0) ⟨"DELETE", "/expenses/abc", none⟩
        (wired emptyTable)).1.status = 400 := by
  decide

theorem RegisterExpense_postgres_ok {σ : Type} (db : Database σ) (now : Nat) (desc : String)
    (amount : Float64) (category : String) (w : Logged RepoCall σ) (id : Int) (s1 : σ)
    (ha : amount.leZero = false) (hd : desc ≠ "")
    (hins : db.insertReturningID desc amount category now w.st = (.ok id, s1)) :
    (RegisterExpense (NewPostgresRepository db) now desc amount category w).1 =
      (some ⟨id, desc, amount, category, now⟩, none) := by
  simp [RegisterExpense, NewPostgresRepository, PostgresRepository.Create, ha, hd, hins]

theorem mainDelete_zero (o : SaveOutcome) (w : Cli) :
    (mainDelete 0 o w).expenses = w.expenses ∧ (mainDelete 0 o w).saves = w.saves := by
  simp [mainDelete]

/-- C1: `RegisterExpense` returns an error without calling `Create` exactly when
`amount <= 0` or the description is empty; otherwise it calls `Create` once, with the record
holding the submitted description, amount and category, and returns the record as `Create`
left it when `Create` succeeds and the error of `Create` when it fails. -/
theorem RegisterExpense_contract {σ : Type} (repo : ExpenseRepository σ) (now : Nat)
    (desc : String) (amount : Float64) (category : String) (w : Logged RepoCall σ) :
    (((RegisterExpense repo now desc amount category w).1.2 ≠ none ∧
        (RegisterExpense repo now desc amount category w).2.calls = w.calls) ↔
      (amount.leZero = true ∨ desc = "")) ∧
    ((amount.leZero = true ∨ desc = "") →
      (RegisterExpense repo now desc amount category w).1.1 = none ∧
      (RegisterExpense repo now desc amount category w).2.st = w.st) ∧
    (¬ (amount.leZero = true ∨ desc = "") →
      (RegisterExpense repo now desc amount category w).2.calls =
        w.calls ++ [.Create ⟨0, desc, amount, category, now⟩] ∧
      (RegisterExpense repo now desc amount category w).2.st =
        (repo.Create ⟨0, desc, amount, category, now⟩ w.st).2 ∧
      (∀ err, (repo.Create ⟨0, desc, amount, category, now⟩ w.st).1.2 = some err →
        (RegisterExpense repo now desc amount category w).1 = (none, some err)) ∧
      ((repo.Create ⟨0, desc, amount, category, now⟩ w.st).1.2 = none →
        (RegisterExpense repo now desc amount category w).1 =
          (some (repo.Create ⟨0, desc, amount, category, now⟩ w.st).1.1, none))) := by
  unfold RegisterExpense
  by_cases ha : amount.leZero = true
  · simp [ha]
  · by_cases hd : desc = ""
    · simp [ha, hd]
    · simp only [ha, hd, if_false, or_self, not_false_eq_true, false_implies, true_implies,
        iff_false, not_and, true_and]
      cases hc : (repo.Create ⟨0, desc, amount, category, now⟩ w.st).1.2 with
      | none => simp
      | some err => simp

/-- C7: for a DELETE request on `/expenses/` followed by `rest`: an empty `rest` gives 400
without a service call; a `rest` that `ParseInt` rejects gives 400 without a service call;
otherwise `RemoveExpense` is called once with the parsed id, a failure gives 500 with the
error text as body and a success gives 200 with a plain-text confirmation. -/
theorem DeleteExpenseHandler_contract {τ : Type} (svc : ExpenseService τ) (rest : String)
    (body : Option CreateRequest) (w : Logged ServiceCall τ) :
    (rest = "" →
      (DeleteExpenseHandler svc ⟨"DELETE", "/expenses/" ++ rest, body⟩ w).1.status = 400 ∧
      (DeleteExpenseHandler svc ⟨"DELETE", "/expenses/" ++ rest, body⟩ w).2.calls = w.calls ∧
      (DeleteExpenseHandler svc ⟨"DELETE", "/expenses/" ++ rest, body⟩ w).2.st = w.st) ∧
    (∀ err, ParseInt rest = .error err →
      (DeleteExpenseHandler svc ⟨"DELETE", "/expenses/" ++ rest, body⟩ w).1.status = 400 ∧
      (DeleteExpenseHandler svc ⟨"DELETE", "/expenses/" ++ rest, body⟩ w).2.calls = w.calls ∧
      (DeleteExpenseHandler svc ⟨"DELETE", "/expenses/" ++ rest, body⟩ w).2.st = w.st) ∧
    (∀ id, ParseInt rest = .ok id →
      (DeleteExpenseHandler svc ⟨"DELETE", "/expenses/" ++ rest, body⟩ w).2.calls =
        w.calls ++ [.RemoveExpense id] ∧
      (DeleteExpenseHandler svc ⟨"DELETE", "/expenses/" ++ rest, body⟩ w).2.st =
        (svc.RemoveExpense id w.st).2 ∧
      (∀ e, (svc.RemoveExpense id w.st).1 = some e →
        (DeleteExpenseHandler svc ⟨"DELETE", "/expenses/" ++ rest, body⟩ w).1 =
          { status := 500, contentType := some "text/plain; charset=utf-8",
            body := .text (e.Error ++ "\n") }) ∧
      ((svc.RemoveExpense id w.st).1 = none →
        (DeleteExpenseHandler svc ⟨"DELETE", "/expenses/" ++ rest, body⟩ w).1 =
          { status := 200, contentType := none, body := .text "Expense deleted" })) := by
  unfold DeleteExpenseHandler
  simp only [TrimPrefix_append, ne_eq, not_true_eq_false, if_false]
  refine ⟨?_, ?_, ?_⟩
  · intro h
    simp [h, httpError]
  · intro err h
    by_cases hr : rest = ""
    · simp [hr, httpError]
    · simp [hr, h, httpError]
  · intro id h
    have hr : rest ≠ "" := by
      intro hr
      rw [hr, ParseInt_empty] at h
      cases h
    simp only [hr, h, if_false]
    cases hc : (svc.RemoveExpense id w.st).1 with
    | none => simp
    | some e => simp [httpError]

/-- What the get-by-id and create handlers answer when the database cannot be reached:
the storage error of the repository comes back as 404 and as 400. -/
theorem storage_failure_in_get_and_create :
    (GetExpenseDetails (NewPostgresRepository tableDB) 1 (wired downTable).st).1.2 =
        some (.storage "failed to get expense: connection refused") ∧
      (GetExpenseByIDHandler (tableService 0) ⟨"GET", "/expenses/1", none⟩
        (wired downTable)).1.status = 404 ∧
      (RegisterExpense (NewPostgresRepository tableDB) 0 "Lunch" Float64.twelveAndHalf "Food"
        (wired downTable).st).1.2 =
        some (.storage "failed to insert expense: connection refused") ∧
      (CreateExpenseHandler (tableService 0)
        ⟨"POST", "/expenses", some ⟨"Lunch", Float64.twelveAndHalf, "Food"⟩⟩
        (wired downTable)).1.status = 400 := by
  decide

/-- C8 as stated fails: deleting an id that is absent fails with the not-found error of the
repository and is answered 500, not 404. -/
theorem delete_not_found_is_500 :
    (RemoveExpense (NewPostgresRepository tableDB) 999 (wired emptyTable).st).1 =
        some .notFound ∧
      (DeleteExpenseHandler (tableService 0) ⟨"DELETE", "/expenses/999", none⟩
        (wired emptyTable)).1 =
        { status := 500, contentType := some "text/plain; charset=utf-8",
          body := .text "expense not found\n" } ∧
      (DeleteExpenseHandler (tableService 0) ⟨"DELETE", "/expenses/999", none⟩
        (wired emptyTable)).1.status ≠ 404 := by
  decide

/-- C8, amended: the list handler and the delete handler answer every failure of their
service call with 500, a storage failure and (in the delete handler) a not-found error
alike; the get-by-id handler answers a not-found error with 404. -/
theorem failure_status_by_design {τ : Type} (svc : ExpenseService τ)
    (w : Logged ServiceCall τ) :
    (∀ path body err, (svc.ListExpenses w.st).1.2 = some err →
      (ListExpensesHandler svc ⟨"GET", path, body⟩ w).1.status = 500) ∧
    (∀ rest body id err, ParseInt rest = .ok id → (svc.RemoveExpense id w.st).1 = some err →
      (DeleteExpenseHandler svc ⟨"DELETE", "/expenses/" ++ rest, body⟩ w).1.status = 500) ∧
    (∀ rest body id, ParseInt rest = .ok id →
      (svc.GetExpenseDetails id w.st).1.2 = some .notFound →
      (GetExpenseByIDHandler svc ⟨"GET", "/expenses/" ++ rest, body⟩ w).1.status = 404) := by
  refine ⟨?_, ?_, ?_⟩
  · intro path body err h
    simp [ListExpensesHandler, h, httpError]
  · intro rest body id err hp h
    have hr : rest ≠ "" := by
      intro hr
      rw [hr, ParseInt_empty] at hp
      cases hp
    simp [DeleteExpenseHandler, TrimPrefix_append, hp, h, hr, httpError]
  · intro rest body id hp h
    simp [GetExpenseByIDHandler, TrimPrefix_append, hp, h, httpError]

theorem failure_status_by_design_witness :
    (GetExpenseByIDHandler (tableService 0) ⟨"GET", "/expenses/" ++ "999", none⟩
        (wired emptyTable)).1.status = 404 ∧
      (DeleteExpenseHandler (tableService 0) ⟨"DELETE", "/expenses/" ++ "1", none⟩
        (wired downTable)).1.status = 500 ∧
      (ListExpensesHandler (tableService 0) ⟨"GET", "/expenses", none⟩
        (wired downTable)).1.status = 500 :=
  ⟨(failure_status_by_design (tableService 0) (wired emptyTable)).2.2 "999" none 999 rfl rfl,
    (failure_status_by_design (tableService 0) (wired downTable)).2.1 "1" none 1
      (.storage "failed to delete expense: connection refused") rfl rfl,
    (failure_status_by_design (tableService 0) (wired downTable)).1 "/expenses" none
      (.storage "failed to query expenses: connection refused") rfl⟩

end ExpenseTracker
